import Mathlib

/-!
Shallow embedding of the PushButton library (PushButton.cpp): a per-button
debounce/classification state machine (`PushButton`) and a dynamic group of
button references (`PushButtonGroup`).

Machine integers: the Arduino millisecond clock is a wrapping 32-bit
unsigned counter (`unsigned long`); every elapsed-time expression in the
source is `millis() - t` computed in that modular arithmetic.  We model
clock values as `Nat` and modular subtraction explicitly via `esub`.

Environment collaborators (`digitalRead`, `millis`, `pinMode`) are passed
as explicit arguments: each call to `update` receives the raw sample `raw`
and the current clock value `t`; `pinMode` is an external side effect with
no bearing on the machine state and is dropped.
-/

/-- Width of the wrapping millisecond counter: 2^32. -/
def clockW : Nat := 4294967296

/-- Wraparound-safe elapsed time: the value of `a - b` on 32-bit unsigned
integers, i.e. subtraction modulo 2^32. -/
def esub (a b : Nat) : Nat := (a % clockW + (clockW - b % clockW)) % clockW

/-- State of one `PushButton` instance.  Field names follow the C++ members
(`_pin`, `_state`, ... without the underscore).  The C++ default constructor
leaves most fields indeterminate; the Lean defaults below are an arbitrary
fixed choice, and every general theorem quantifies over all states. -/
structure PushButton where
  pin : Int := 0
  pinModeField : Nat := 0
  invert : Bool := false
  debounceDelay : Nat := 5
  longDelay : Nat := 1000
  doubleDelay : Nat := 300
  state : Bool := false
  pState : Bool := false
  now : Bool := false
  prev : Bool := false
  time : Nat := 0
  timeDouble : Nat := 0
  longState : Bool := false
  longClick : Bool := false
  doubleClick : Bool := false
  isJustPressed : Bool := false
  isJustReleased : Bool := false
  deriving Repr, DecidableEq

/-- The C++ constructor `PushButton::PushButton()`: sets the three delays
and stamps `_time = millis()`; everything else is left indeterminate
(modelled by the structure defaults). -/
def mkPushButton (t : Nat) : PushButton :=
  { debounceDelay := 5, longDelay := 1000, doubleDelay := 300, time := t }

/-- Arduino pin-mode constant `INPUT`. -/
def INPUT : Nat := 0

/-- Arduino pin-mode constant `INPUT_PULLUP`. -/
def INPUT_PULLUP : Nat := 2

/-- Mode constant `PULLUP` from the library header (the header is not part
of the sources; only equality with it is ever tested, so its numeric value
is irrelevant as long as it differs from the other mode constants). -/
def PULLUP : Nat := 3

/-- `PushButton::begin(pin, mode)`: binds the pin, sets `invert` from the
wiring polarity, primes `state`/`pState`/`now`/`prev` to the inactive raw
level, clears `longState` and `longClick`, and marks both one-shot guards
consumed.  Note the source does NOT touch `doubleClick` or `timeDouble`. -/
def PushButton.begin (s : PushButton) (pin : Int) (mode : Nat) : PushButton :=
  let inv : Bool := mode == INPUT_PULLUP || mode == PULLUP
  { s with pin := pin, pinModeField := mode, invert := inv,
           state := inv, pState := inv, now := inv, prev := inv,
           longState := false, longClick := false,
           isJustPressed := true, isJustReleased := true }

/-- `PushButton::setDebounceDelay`. -/
def PushButton.setDebounceDelay (s : PushButton) (d : Nat) : PushButton :=
  { s with debounceDelay := d }

/-- `PushButton::setLongDelay`. -/
def PushButton.setLongDelay (s : PushButton) (d : Nat) : PushButton :=
  { s with longDelay := d }

/-- `PushButton::setDoubleDelay`. -/
def PushButton.setDoubleDelay (s : PushButton) (d : Nat) : PushButton :=
  { s with doubleDelay := d }

/-- `PushButton::isPressed()`: `_state ^ _invert`. -/
def PushButton.isPressed (s : PushButton) : Bool := xor s.state s.invert

/-- `PushButton::isReleased()`: `!_state ^ _invert` (in C++ `!` binds
tighter than `^`). -/
def PushButton.isReleased (s : PushButton) : Bool := xor (!s.state) s.invert

/-- `PushButton::isLongPressed()`. -/
def PushButton.isLongPressed (s : PushButton) : Bool :=
  xor s.state s.invert && s.longState

/-- `PushButton::isLongReleased()`. -/
def PushButton.isLongReleased (s : PushButton) : Bool :=
  xor (!s.state) s.invert && s.longState

/-- `PushButton::update()`: `raw` is this call's `digitalRead(_pin)` and
`t` this call's `millis()` (the source reads `millis()` several times in
one call; they are modelled as one instant, as the spec does).  Returns the
new state and the C++ return value. -/
def PushButton.update (s0 : PushButton) (raw : Bool) (t : Nat) : PushButton × Bool :=
  -- _prev = _now; _now = digitalRead(_pin);
  let s := { s0 with prev := s0.now, now := raw }
  -- if(_now != _prev){ _time = millis(); return false; }
  if s.now ≠ s.prev then
    ({ s with time := t }, false)
  -- if((_state != _now) && ((millis() - _time) > _debounceDelay))
  else if s.state ≠ s.now ∧ esub t s.time > s.debounceDelay then
    -- _pState = _state; _state = _now; _longState = false;
    -- _isJustPressed = false; _isJustReleased = false;
    let s1 := { s with pState := s.state, state := s.now, longState := false,
                       isJustPressed := false, isJustReleased := false }
    -- if(isPressed()){ _longClick = false; }
    let s2 := if s1.isPressed then { s1 with longClick := false } else s1
    -- if(isReleased()){ _doubleClick = (millis() - _timeDouble) < _doubleDelay;
    --                   _timeDouble = millis(); }
    let s3 := if s2.isReleased then
        { s2 with doubleClick := decide (esub t s2.timeDouble < s2.doubleDelay),
                  timeDouble := t }
      else s2
    (s3, true)
  -- if(!_longState && ((millis() - _time) > _longDelay))
  else if ¬s.longState ∧ esub t s.time > s.longDelay then
    let s1 := { s with longState := true }
    let s2 := if s1.isPressed then { s1 with longClick := true } else s1
    (s2, true)
  else
    (s, false)

/-- `PushButton::justPressed()`: one-shot edge detector for the pressed
level, mutating its consumption guard when it fires. -/
def PushButton.justPressed (s : PushButton) : PushButton × Bool :=
  if s.isPressed && !s.isJustPressed then
    ({ s with isJustPressed := true }, true)
  else
    (s, false)

/-- `PushButton::justReleased()`: one-shot edge detector for the released
level, mutating its consumption guard when it fires. -/
def PushButton.justReleased (s : PushButton) : PushButton × Bool :=
  if s.isReleased && !s.isJustReleased then
    ({ s with isJustReleased := true }, true)
  else
    (s, false)

/-- `PushButton::justClicked()`: suppressed inside the double-click
ambiguity window or when a long/double click is latched, else delegates to
`justReleased()`.  `t` is this call's `millis()`. -/
def PushButton.justClicked (s : PushButton) (t : Nat) : PushButton × Bool :=
  if decide (esub t s.timeDouble < s.doubleDelay) || (s.longClick || s.doubleClick) then
    (s, false)
  else
    s.justReleased

/-- `PushButton::justLongClicked()`: reports the latched long-click flag
once, consuming it through a qualifying `justReleased()`. -/
def PushButton.justLongClicked (s : PushButton) : PushButton × Bool :=
  if !s.longClick then
    (s, false)
  else
    let p := s.justReleased
    if p.2 then ({ p.1 with longClick := false }, true) else (p.1, false)

/-- `PushButton::justDoubleClicked()`: reports the latched double-click
flag once, consuming it through a qualifying `justReleased()`. -/
def PushButton.justDoubleClicked (s : PushButton) : PushButton × Bool :=
  if !s.doubleClick then
    (s, false)
  else
    let p := s.justReleased
    if p.2 then ({ p.1 with doubleClick := false }, true) else (p.1, false)

/-- Reference identity of an externally owned `PushButton` (a non-null
pointer value).  The group stores these; `remove` compares them with `==`
(pointer equality in the source). -/
abbrev ButtonRef := Nat

/-- State of a `PushButtonGroup`: the contents of the allocated pointer
table and the `buttonsSize` counter (an `int` in the source, hence `Int`:
the two can disagree after a failed reallocation). -/
structure PushButtonGroup where
  buttons : List ButtonRef
  buttonsSize : Int
  deriving Repr, DecidableEq

/-- `PushButtonGroup::PushButtonGroup()`: `buttons = NULL; buttonsSize = 0`. -/
def mkPushButtonGroup : PushButtonGroup := { buttons := [], buttonsSize := 0 }

/-- Defined behaviour of `realloc(p, n)` on success: a block of `n` slots
whose first `min(old, n)` slots hold the old contents; fresh slots are
indeterminate (modelled as the null reference 0). -/
def listRealloc (l : List ButtonRef) (n : Nat) : List ButtonRef :=
  l.take n ++ List.replicate (n - l.length) 0

/-- `PushButtonGroup::add(button)`: increments `buttonsSize` FIRST, then
reallocates; on allocation failure (`allocOk = false`) it returns with the
counter already incremented and the old table in place; on success it
stores `button` in the last slot of the grown table. -/
def PushButtonGroup.add (g : PushButtonGroup) (button : ButtonRef)
    (allocOk : Bool) : PushButtonGroup :=
  let size' := g.buttonsSize + 1
  if allocOk = false then
    { g with buttonsSize := size' }
  else
    { buttons := (listRealloc g.buttons size'.toNat).set (size'.toNat - 1) button,
      buttonsSize := size' }

/-- The copy loop of `PushButtonGroup::remove`: iterates over the old
table entries, skipping EVERY entry equal to `button`, writing the others
into `tmp` at `count` (a write past the end of `tmp` is out of bounds in
the source; it is modelled as discarded, which `List.set` does). -/
def removeCopy : List ButtonRef → ButtonRef → List ButtonRef → Nat → List ButtonRef
  | [], _, tmp, _ => tmp
  | x :: rest, button, tmp, count =>
    if x == button then removeCopy rest button tmp count
    else removeCopy rest button (tmp.set count x) (count + 1)

/-- `PushButtonGroup::remove(button)`: decrements `buttonsSize` FIRST; if
it hits zero, frees the table and returns; otherwise shrinks the table with
`realloc` (failure returns with the counter already decremented) and runs
the copy loop over `top = buttonsSize + 1` old entries.  The source reads
the old table through a pointer already passed to `realloc`; this model
uses the defined-behaviour reading where the shrunk block retains the old
prefix. -/
def PushButtonGroup.remove (g : PushButtonGroup) (button : ButtonRef)
    (allocOk : Bool) : PushButtonGroup :=
  let size' := g.buttonsSize - 1
  if size' = 0 then
    { buttons := [], buttonsSize := size' }
  else if allocOk = false then
    { g with buttonsSize := size' }
  else
    { buttons := removeCopy (g.buttons.take (size' + 1).toNat) button
                   (listRealloc g.buttons size'.toNat) 0,
      buttonsSize := size' }

/-- The loop of `PushButtonGroup::update()`: `H` is the heap of buttons
indexed by reference, `rawOf` the pin-level environment, `t` the current
clock, `st` the `state` accumulator. -/
def groupUpdateLoop : List ButtonRef → (ButtonRef → PushButton) → (Int → Bool) →
    Nat → Bool → (ButtonRef → PushButton) × Bool
  | [], H, _, _, st => (H, st)
  | b :: rest, H, rawOf, t, st =>
    let p := (H b).update (rawOf (H b).pin) t
    groupUpdateLoop rest (fun j => if j = b then p.1 else H j) rawOf t (st || p.2)

/-- `PushButtonGroup::update()`: runs the loop over the first
`buttonsSize` table entries with the accumulator starting `false`. -/
def PushButtonGroup.update (g : PushButtonGroup) (H : ButtonRef → PushButton)
    (rawOf : Int → Bool) (t : Nat) : (ButtonRef → PushButton) × Bool :=
  groupUpdateLoop (g.buttons.take g.buttonsSize.toNat) H rawOf t false

/-- The sequence of member-update results produced by the group loop, in
iteration order (instrumentation used to state properties of the loop). -/
def groupResults : List ButtonRef → (ButtonRef → PushButton) → (Int → Bool) →
    Nat → List Bool
  | [], _, _, _ => []
  | b :: rest, H, rawOf, t =>
    let p := (H b).update (rawOf (H b).pin) t
    p.2 :: groupResults rest (fun j => if j = b then p.1 else H j) rawOf t

/-- The heap produced by updating every listed member once, in order,
independently of any boolean accumulation. -/
def groupHeap : List ButtonRef → (ButtonRef → PushButton) → (Int → Bool) →
    Nat → (ButtonRef → PushButton)
  | [], H, _, _ => H
  | b :: rest, H, rawOf, t =>
    let p := (H b).update (rawOf (H b).pin) t
    groupHeap rest (fun j => if j = b then p.1 else H j) rawOf t

/-- Shifting both operands of the wrapping subtraction by a common constant
leaves the elapsed time unchanged. -/
theorem esub_shift (a b c : Nat) : esub (a + c) (b + c) = esub a b := by
  unfold esub clockW
  omega

/-- Sample states used by concrete witnesses: a freshly constructed button
at rest, and one whose raw reading has been stably high since `time = 0`
while the debounced state is still low. -/
def sampleIdle : PushButton := mkPushButton 0

/-- Sample state: raw reading stably `true`, debounced state still `false`,
debounce window started at clock 0. -/
def sampleStable : PushButton := { mkPushButton 0 with now := true, prev := true }

/-- C6: `isPressed()` and `isReleased()` are exact logical complements in
every state (`_state ^ _invert` versus `!_state ^ _invert`). -/
theorem isPressed_eq_not_isReleased (s : PushButton) : s.isPressed = !s.isReleased := by
  rcases s with ⟨_, _, inv, _, _, _, st, _⟩
  simp only [PushButton.isPressed, PushButton.isReleased]
  cases st <;> cases inv <;> rfl

/-- C10: when the fresh raw sample differs from the previous one, `update`
returns `false` and modifies exactly the fields `prev`, `now` and `time`
(set to the current instant); every other field is untouched. -/
theorem update_flip_frame (s : PushButton) (raw : Bool) (t : Nat) (h : raw ≠ s.now) :
    s.update raw t = ({ s with prev := s.now, now := raw, time := t }, false) := by
  simp only [PushButton.update]
  rw [if_pos]
  simpa using h

/-- Witness for `update_flip_frame` at a concrete flip. -/
theorem update_flip_frame_witness :
    sampleIdle.update true 7 =
      ({ sampleIdle with prev := false, now := true, time := 7 }, false) :=
  update_flip_frame sampleIdle true 7 (by decide)

/-- C5: debounce gating of `update`.  (1) A raw flip restarts the debounce
window (`time := t`) and returns `false` without touching anything else;
(2) the debounced `state` changes only on a call whose raw sample equals
the previous one and whose elapsed time since the last observed raw change
strictly exceeds `debounceDelay` (and such a call returns `true`);
(3) a stable call never moves the window start `time`, so `time` always
marks the last raw change. -/
theorem update_debounce_gating (s : PushButton) (raw : Bool) (t : Nat) :
    (raw ≠ s.now → s.update raw t = ({ s with prev := s.now, now := raw, time := t }, false)) ∧
    ((s.update raw t).1.state ≠ s.state →
        raw = s.now ∧ esub t s.time > s.debounceDelay ∧ (s.update raw t).2 = true) ∧
    (raw = s.now → (s.update raw t).1.time = s.time) := by
  refine ⟨?_, ?_, ?_⟩
  · intro h
    simp only [PushButton.update]
    rw [if_pos]
    simpa using h
  · intro h
    simp only [PushButton.update] at h ⊢
    split_ifs at h ⊢ with h1 h2 h3 <;> simp_all
  · intro h
    simp only [PushButton.update]
    split_ifs with h1 h2 h3 <;> simp_all

/-- Witness for `update_debounce_gating`: a concrete flip, a concrete
accepted transition (stable raw `true` for 10 ms against a 5 ms delay),
and window preservation on that stable call. -/
theorem update_debounce_gating_witness :
    (sampleIdle.update true 7 =
        ({ sampleIdle with prev := false, now := true, time := 7 }, false)) ∧
    (true = sampleStable.now ∧ esub 10 sampleStable.time > sampleStable.debounceDelay ∧
        (sampleStable.update true 10).2 = true) ∧
    (sampleStable.update true 10).1.time = sampleStable.time :=
  ⟨(update_debounce_gating sampleIdle true 7).1 (by decide),
   (update_debounce_gating sampleStable true 10).2.1 (by decide),
   (update_debounce_gating sampleStable true 10).2.2 (by decide)⟩

/-- C1 evaluation: `PushButtonGroup::add` increments `buttonsSize` before
attempting the reallocation, so on allocation failure the call is NOT a
no-op: the table and the stored references are unchanged, but the size
counter has grown by one, leaving a dangling slot for the next iteration. -/
theorem group_add_allocFail_not_noop (g : PushButtonGroup) (b : ButtonRef) :
    (g.add b false).buttons = g.buttons ∧
    (g.add b false).buttonsSize = g.buttonsSize + 1 ∧
    g.add b false ≠ g := by
  refine ⟨rfl, rfl, ?_⟩
  intro hEq
  have h2 : (g.add b false).buttonsSize = g.buttonsSize := by rw [hEq]
  rw [show (g.add b false).buttonsSize = g.buttonsSize + 1 from rfl] at h2
  omega

/-- A group holding references `a, a, b, c` (as 1, 1, 2, 3): the duplicate
case of C2. -/
def dupGroup : PushButtonGroup := { buttons := [1, 1, 2, 3], buttonsSize := 4 }

/-- C2 evaluation: removing the duplicated reference 1 from `[1,1,2,3]`
drops BOTH copies of 1 from the compacted prefix and the shrunk block's
retained tail re-exposes a stale copy of 2, yielding `[2,3,2]`.  The claim
("exactly the first match removed, the other duplicate remains") fails:
after the call no entry equals 1 at all. -/
theorem group_remove_duplicates_eval :
    (dupGroup.remove 1 true).buttons = [2, 3, 2] ∧
    (dupGroup.remove 1 true).buttonsSize = 3 ∧
    dupGroup.buttons.count 1 = 2 ∧
    (dupGroup.remove 1 true).buttons.count 1 = 0 := by decide

/-- A group holding the single reference 1: the absent-reference case of C3. -/
def singletonGroup : PushButtonGroup := { buttons := [1], buttonsSize := 1 }

/-- C3 evaluation: removing the absent reference 2 from the one-member
group `[1]` is NOT a no-op: `buttonsSize` is decremented to zero before any
membership test, so the code frees the table and the group ends up empty,
whether or not a reallocation would have succeeded. -/
theorem group_remove_absent_eval :
    singletonGroup.buttons.count 2 = 0 ∧
    singletonGroup.remove 2 true = { buttons := [], buttonsSize := 0 } ∧
    singletonGroup.remove 2 false = { buttons := [], buttonsSize := 0 } ∧
    singletonGroup.remove 2 true ≠ singletonGroup := by decide

/-- A button state carrying a latched double-click flag, as left by a past
pair of close releases. -/
def staleDouble : PushButton := { mkPushButton 0 with doubleClick := true }

/-- C4 counterexample: `begin` does NOT clear the `doubleClick` latch (the
source resets `_longState`, `_longClick` and both guards but never touches
`_doubleClick`), so "all long/gesture latches (longState, longClick,
doubleClick) are cleared" fails on this concrete state. -/
theorem begin_doubleClick_counterexample :
    (staleDouble.begin 1 INPUT).doubleClick = true := by decide

/-- An observable operation on one button: an `update` call (with its raw
sample and clock value) or one of the mutating one-shot accessors. -/
inductive ButtonOp where
  | upd (raw : Bool) (t : Nat)
  | qJustPressed
  | qJustReleased
  | qJustClicked (t : Nat)
  | qJustLongClicked
  | qJustDoubleClicked
  deriving Repr, DecidableEq

/-- State reached after performing one operation (discarding its result). -/
def stepOp (s : PushButton) : ButtonOp → PushButton
  | .upd raw t => (s.update raw t).1
  | .qJustPressed => s.justPressed.1
  | .qJustReleased => s.justReleased.1
  | .qJustClicked t => (s.justClicked t).1
  | .qJustLongClicked => s.justLongClicked.1
  | .qJustDoubleClicked => s.justDoubleClicked.1

/-- State reached after a sequence of operations. -/
def runOps (s : PushButton) (ops : List ButtonOp) : PushButton := ops.foldl stepOp s

/-- Does this operation commit a new debounced level (an `update` call that
changes the `state` field)? -/
def committedB (s : PushButton) : ButtonOp → Bool
  | .upd raw t => (s.update raw t).1.state != s.state
  | _ => false

/-- A run of operations none of which commits a new debounced level. -/
def noCommitB : PushButton → List ButtonOp → Bool
  | _, [] => true
  | s, op :: ops => !committedB s op && noCommitB (stepOp s op) ops

/-- The consumed `justPressed` guard survives every operation that does not
commit a new debounced level. -/
theorem guardP_preserved (s : PushButton) (op : ButtonOp) (hg : s.isJustPressed = true)
    (hc : committedB s op = false) : (stepOp s op).isJustPressed = true := by
  cases op with
  | upd raw t =>
    simp only [stepOp, committedB, bne_eq_false_iff_eq] at hc ⊢
    simp only [PushButton.update] at hc ⊢
    split_ifs at hc ⊢ <;> simp_all
  | qJustPressed =>
    simp only [stepOp, PushButton.justPressed]
    split_ifs <;> simp_all
  | qJustReleased =>
    simp only [stepOp, PushButton.justReleased]
    split_ifs <;> simp_all
  | qJustClicked t =>
    simp only [stepOp, PushButton.justClicked, PushButton.justReleased]
    split_ifs <;> simp_all
  | qJustLongClicked =>
    simp only [stepOp, PushButton.justLongClicked, PushButton.justReleased]
    split_ifs <;> simp_all
  | qJustDoubleClicked =>
    simp only [stepOp, PushButton.justDoubleClicked, PushButton.justReleased]
    split_ifs <;> simp_all

/-- The consumed `justReleased` guard survives every operation that does
not commit a new debounced level. -/
theorem guardR_preserved (s : PushButton) (op : ButtonOp) (hg : s.isJustReleased = true)
    (hc : committedB s op = false) : (stepOp s op).isJustReleased = true := by
  cases op with
  | upd raw t =>
    simp only [stepOp, committedB, bne_eq_false_iff_eq] at hc ⊢
    simp only [PushButton.update] at hc ⊢
    split_ifs at hc ⊢ <;> simp_all
  | qJustPressed =>
    simp only [stepOp, PushButton.justPressed]
    split_ifs <;> simp_all
  | qJustReleased =>
    simp only [stepOp, PushButton.justReleased]
    split_ifs <;> simp_all
  | qJustClicked t =>
    simp only [stepOp, PushButton.justClicked, PushButton.justReleased]
    split_ifs <;> simp_all
  | qJustLongClicked =>
    simp only [stepOp, PushButton.justLongClicked, PushButton.justReleased]
    split_ifs <;> simp_all
  | qJustDoubleClicked =>
    simp only [stepOp, PushButton.justDoubleClicked, PushButton.justReleased]
    split_ifs <;> simp_all

/-- Run form of `guardP_preserved`. -/
theorem guardP_run (s : PushButton) (ops : List ButtonOp) (hg : s.isJustPressed = true)
    (hnc : noCommitB s ops = true) : (runOps s ops).isJustPressed = true := by
  induction ops generalizing s with
  | nil => simpa [runOps] using hg
  | cons op rest ih =>
    simp only [noCommitB, Bool.and_eq_true, Bool.not_eq_true'] at hnc
    exact ih (stepOp s op) (guardP_preserved s op hg hnc.1) hnc.2

/-- Run form of `guardR_preserved`. -/
theorem guardR_run (s : PushButton) (ops : List ButtonOp) (hg : s.isJustReleased = true)
    (hnc : noCommitB s ops = true) : (runOps s ops).isJustReleased = true := by
  induction ops generalizing s with
  | nil => simpa [runOps] using hg
  | cons op rest ih =>
    simp only [noCommitB, Bool.and_eq_true, Bool.not_eq_true'] at hnc
    exact ih (stepOp s op) (guardR_preserved s op hg hnc.1) hnc.2

/-- Quiescent states: both one-shot guards consumed, no latched long click,
and the debounced level at the inactive raw level (`state = invert`), as
`begin` establishes.  In such states no event accessor can fire. -/
def Quiet (s : PushButton) : Prop :=
  s.isJustPressed = true ∧ s.isJustReleased = true ∧ s.longClick = false ∧ s.state = s.invert

/-- Quiescence survives every operation that does not commit a new
debounced level (in particular a long-release latch cannot set
`longClick`, since the button reads released). -/
theorem quiet_step (s : PushButton) (op : ButtonOp) (hq : Quiet s)
    (hc : committedB s op = false) : Quiet (stepOp s op) := by
  obtain ⟨h1, h2, h3, h4⟩ := hq
  cases op with
  | upd raw t =>
    simp only [stepOp, committedB, bne_eq_false_iff_eq] at hc ⊢
    simp only [Quiet, PushButton.update, PushButton.isPressed] at hc ⊢
    split_ifs at hc ⊢ <;> simp_all
  | qJustPressed =>
    simp only [stepOp, Quiet, PushButton.justPressed]
    split_ifs <;> simp_all
  | qJustReleased =>
    simp only [stepOp, Quiet, PushButton.justReleased]
    split_ifs <;> simp_all
  | qJustClicked t =>
    simp only [stepOp, Quiet, PushButton.justClicked, PushButton.justReleased]
    split_ifs <;> simp_all
  | qJustLongClicked =>
    simp only [stepOp, Quiet, PushButton.justLongClicked, PushButton.justReleased]
    split_ifs <;> simp_all
  | qJustDoubleClicked =>
    simp only [stepOp, Quiet, PushButton.justDoubleClicked, PushButton.justReleased]
    split_ifs <;> simp_all

/-- Run form of `quiet_step`. -/
theorem quiet_run (s : PushButton) (ops : List ButtonOp) (hq : Quiet s)
    (hnc : noCommitB s ops = true) : Quiet (runOps s ops) := by
  induction ops generalizing s with
  | nil => simpa [runOps] using hq
  | cons op rest ih =>
    simp only [noCommitB, Bool.and_eq_true, Bool.not_eq_true'] at hnc
    exact ih (stepOp s op) (quiet_step s op hq hnc.1) hnc.2

/-- In a quiescent state every event accessor returns `false` — including
`justDoubleClicked`, even when a stale `doubleClick` latch is set, because
it is gated behind the consumed `justReleased` guard. -/
theorem quiet_accessors (s : PushButton) (hq : Quiet s) :
    s.justPressed.2 = false ∧ s.justReleased.2 = false ∧
    (∀ t, (s.justClicked t).2 = false) ∧
    s.justLongClicked.2 = false ∧ s.justDoubleClicked.2 = false := by
  obtain ⟨h1, h2, h3, h4⟩ := hq
  refine ⟨?_, ?_, ?_, ?_, ?_⟩ <;>
    simp only [PushButton.justPressed, PushButton.justReleased, PushButton.justClicked,
      PushButton.justLongClicked, PushButton.justDoubleClicked, PushButton.isPressed] <;>
    split_ifs <;> simp_all

/-- Does this operation commit a new debounced level whose new state reads
pressed — an accepted transition INTO the pressed level? -/
def committedPressedB (s : PushButton) : ButtonOp → Bool
  | .upd raw t => ((s.update raw t).1.state != s.state) && (s.update raw t).1.isPressed
  | _ => false

/-- Does this operation commit a new debounced level whose new state reads
released — an accepted transition INTO the released level? -/
def committedReleasedB (s : PushButton) : ButtonOp → Bool
  | .upd raw t => ((s.update raw t).1.state != s.state) && (s.update raw t).1.isReleased
  | _ => false

/-- A run of operations none of which commits a transition into the
pressed level (transitions into the released level, raw flips, long
latches and accessor calls are all allowed). -/
def noPressCommitB : PushButton → List ButtonOp → Bool
  | _, [] => true
  | s, op :: ops => !committedPressedB s op && noPressCommitB (stepOp s op) ops

/-- A run of operations none of which commits a transition into the
released level. -/
def noReleaseCommitB : PushButton → List ButtonOp → Bool
  | _, [] => true
  | s, op :: ops => !committedReleasedB s op && noReleaseCommitB (stepOp s op) ops

/-- The invariant "whenever the button reads pressed, the `justPressed`
guard is consumed" survives every operation except an accepted transition
into the pressed level: a commit into the released level makes the button
read released (so the invariant holds vacuously even though it re-arms the
guard), and no other operation arms the guard. -/
theorem invP_preserved (s : PushButton) (op : ButtonOp)
    (h : s.isPressed = true → s.isJustPressed = true)
    (hc : committedPressedB s op = false) :
    (stepOp s op).isPressed = true → (stepOp s op).isJustPressed = true := by
  cases op with
  | upd raw t =>
    simp only [stepOp, committedPressedB] at hc ⊢
    simp only [PushButton.update, PushButton.isPressed] at *
    split_ifs at hc ⊢ <;> simp_all
  | qJustPressed =>
    simp only [stepOp, PushButton.justPressed, PushButton.isPressed] at *
    split_ifs <;> simp_all
  | qJustReleased =>
    simp only [stepOp, PushButton.justReleased, PushButton.isPressed] at *
    split_ifs <;> simp_all
  | qJustClicked t =>
    simp only [stepOp, PushButton.justClicked, PushButton.justReleased, PushButton.isPressed] at *
    split_ifs <;> simp_all
  | qJustLongClicked =>
    simp only [stepOp, PushButton.justLongClicked, PushButton.justReleased, PushButton.isPressed] at *
    split_ifs <;> simp_all
  | qJustDoubleClicked =>
    simp only [stepOp, PushButton.justDoubleClicked, PushButton.justReleased, PushButton.isPressed] at *
    split_ifs <;> simp_all

/-- Mirror of `invP_preserved` for the released level and the
`justReleased` guard. -/
theorem invR_preserved (s : PushButton) (op : ButtonOp)
    (h : s.isReleased = true → s.isJustReleased = true)
    (hc : committedReleasedB s op = false) :
    (stepOp s op).isReleased = true → (stepOp s op).isJustReleased = true := by
  cases op with
  | upd raw t =>
    simp only [stepOp, committedReleasedB] at hc ⊢
    simp only [PushButton.update, PushButton.isReleased] at *
    split_ifs at hc ⊢ <;> simp_all
  | qJustPressed =>
    simp only [stepOp, PushButton.justPressed, PushButton.isReleased] at *
    split_ifs <;> simp_all
  | qJustReleased =>
    simp only [stepOp, PushButton.justReleased, PushButton.isReleased] at *
    split_ifs <;> simp_all
  | qJustClicked t =>
    simp only [stepOp, PushButton.justClicked, PushButton.justReleased, PushButton.isReleased] at *
    split_ifs <;> simp_all
  | qJustLongClicked =>
    simp only [stepOp, PushButton.justLongClicked, PushButton.justReleased, PushButton.isReleased] at *
    split_ifs <;> simp_all
  | qJustDoubleClicked =>
    simp only [stepOp, PushButton.justDoubleClicked, PushButton.justReleased, PushButton.isReleased] at *
    split_ifs <;> simp_all

/-- Run form of `invP_preserved`. -/
theorem invP_run (s : PushButton) (ops : List ButtonOp)
    (h : s.isPressed = true → s.isJustPressed = true)
    (hnc : noPressCommitB s ops = true) :
    (runOps s ops).isPressed = true → (runOps s ops).isJustPressed = true := by
  induction ops generalizing s with
  | nil => simpa [runOps] using h
  | cons op rest ih =>
    simp only [noPressCommitB, Bool.and_eq_true, Bool.not_eq_true'] at hnc
    exact ih (stepOp s op) (invP_preserved s op h hnc.1) hnc.2

/-- Run form of `invR_preserved`. -/
theorem invR_run (s : PushButton) (ops : List ButtonOp)
    (h : s.isReleased = true → s.isJustReleased = true)
    (hnc : noReleaseCommitB s ops = true) :
    (runOps s ops).isReleased = true → (runOps s ops).isJustReleased = true := by
  induction ops generalizing s with
  | nil => simpa [runOps] using h
  | cons op rest ih =>
    simp only [noReleaseCommitB, Bool.and_eq_true, Bool.not_eq_true'] at hnc
    exact ih (stepOp s op) (invR_preserved s op h hnc.1) hnc.2

/-- `justPressed` cannot fire in a state satisfying the pressed-level
guard invariant. -/
theorem justPressed_false_of_invP (s : PushButton)
    (h : s.isPressed = true → s.isJustPressed = true) : s.justPressed.2 = false := by
  simp only [PushButton.justPressed]
  split_ifs with hc
  · simp only [Bool.and_eq_true, Bool.not_eq_true'] at hc
    simp [h hc.1] at hc
  · rfl

/-- `justReleased` cannot fire in a state satisfying the released-level
guard invariant. -/
theorem justReleased_false_of_invR (s : PushButton)
    (h : s.isReleased = true → s.isJustReleased = true) : s.justReleased.2 = false := by
  simp only [PushButton.justReleased]
  split_ifs with hc
  · simp only [Bool.and_eq_true, Bool.not_eq_true'] at hc
    simp [h hc.1] at hc
  · rfl

/-- C7: one-shot semantics of `justPressed`/`justReleased`.  (1) An update
that commits a new debounced level re-arms both guards; (2,4) in the new
level the matching accessor fires `true` exactly once — the immediate
second call returns `false`; (3,5) from any state where the level's guard
is consumed whenever that level is active (as after the accessor has
fired, and also right after a commit into the complementary level), the
accessor stays `false` across every sequence of accessor calls and updates
that contains no accepted transition INTO that level — commits into the
complementary level, raw flips and long latches are all allowed in the
run, so only an update committing a transition into the level can make the
accessor fire again. -/
theorem justPressed_justReleased_oneshot :
    (∀ (s : PushButton) (raw : Bool) (t : Nat), (s.update raw t).1.state ≠ s.state →
        (s.update raw t).1.isJustPressed = false ∧ (s.update raw t).1.isJustReleased = false) ∧
    (∀ s : PushButton, s.isPressed = true → s.isJustPressed = false →
        s.justPressed.2 = true ∧ s.justPressed.1.justPressed.2 = false) ∧
    (∀ (s : PushButton) (ops : List ButtonOp), (s.isPressed = true → s.isJustPressed = true) →
        noPressCommitB s ops = true → (runOps s ops).justPressed.2 = false) ∧
    (∀ s : PushButton, s.isReleased = true → s.isJustReleased = false →
        s.justReleased.2 = true ∧ s.justReleased.1.justReleased.2 = false) ∧
    (∀ (s : PushButton) (ops : List ButtonOp), (s.isReleased = true → s.isJustReleased = true) →
        noReleaseCommitB s ops = true → (runOps s ops).justReleased.2 = false) := by
  refine ⟨?_, ?_, ?_, ?_, ?_⟩
  · intro s raw t h
    simp only [PushButton.update] at h ⊢
    split_ifs at h ⊢ <;> simp_all
  · intro s hP hG
    simp only [PushButton.justPressed]
    split_ifs <;> simp_all
  · intro s ops h hnc
    exact justPressed_false_of_invP _ (invP_run s ops h hnc)
  · intro s hR hG
    simp only [PushButton.justReleased]
    split_ifs <;> simp_all
  · intro s ops h hnc
    exact justReleased_false_of_invR _ (invR_run s ops h hnc)

/-- A pressed button whose `justPressed` guard is armed. -/
def samplePressedArmed : PushButton := { mkPushButton 0 with state := true, isJustPressed := false }

/-- A button with both one-shot guards already consumed. -/
def sampleGuarded : PushButton := { mkPushButton 0 with isJustPressed := true, isJustReleased := true }

/-- A concrete run with no committing update: a stable raw sample at
clock 3 followed by a `justClicked` query at clock 4. -/
def sampleOps : List ButtonOp := [ButtonOp.upd false 3, ButtonOp.qJustClicked 4]

/-- A pressed button with both guards consumed (as right after a pressed
commit whose `justPressed` has been queried). -/
def samplePressedQuiet : PushButton :=
  { mkPushButton 0 with state := true, now := true, prev := true,
                        isJustPressed := true, isJustReleased := true }

/-- A concrete run containing an accepted transition into the RELEASED
level (a raw flip at clock 3, then a stable sample at clock 10 committing
the release) but no transition into the pressed level. -/
def sampleReleaseOps : List ButtonOp := [ButtonOp.upd false 3, ButtonOp.upd false 10]

/-- A concrete run containing an accepted transition into the PRESSED
level but no transition into the released level. -/
def samplePressOps : List ButtonOp := [ButtonOp.upd true 3, ButtonOp.upd true 10]

/-- Witness for `justPressed_justReleased_oneshot` at concrete states: a
committing update, a one-shot fire with immediate re-query, and — for
parts 3 and 5 — consumed accessors staying `false` across runs that DO
commit the complementary transition (which re-arms the guard) but contain
no transition into the queried level. -/
theorem justPressed_justReleased_oneshot_witness :
    ((sampleStable.update true 10).1.isJustPressed = false ∧
        (sampleStable.update true 10).1.isJustReleased = false) ∧
    (samplePressedArmed.justPressed.2 = true ∧
        samplePressedArmed.justPressed.1.justPressed.2 = false) ∧
    (runOps samplePressedQuiet sampleReleaseOps).justPressed.2 = false ∧
    (sampleIdle.justReleased.2 = true ∧
        sampleIdle.justReleased.1.justReleased.2 = false) ∧
    (runOps sampleGuarded samplePressOps).justReleased.2 = false :=
  ⟨justPressed_justReleased_oneshot.1 sampleStable true 10 (by decide),
   justPressed_justReleased_oneshot.2.1 samplePressedArmed (by decide) (by decide),
   justPressed_justReleased_oneshot.2.2.1 samplePressedQuiet sampleReleaseOps
     (by decide) (by decide),
   justPressed_justReleased_oneshot.2.2.2.1 sampleIdle (by decide) (by decide),
   justPressed_justReleased_oneshot.2.2.2.2 sampleGuarded samplePressOps
     (by decide) (by decide)⟩

/-- C4 (amended): `begin` marks both one-shot consumption guards consumed
and clears the `longState` and `longClick` latches (`doubleClick` is left
unchanged — see `begin_doubleClick_counterexample`), and from the state
`begin` establishes no event accessor (`justPressed`, `justReleased`,
`justClicked`, `justLongClicked`, `justDoubleClicked`) returns `true`
under any sequence of operations that contains no update committing a new
debounced level. -/
theorem begin_no_events_until_commit (s : PushButton) (pin : Int) (mode : Nat) :
    ((s.begin pin mode).isJustPressed = true ∧ (s.begin pin mode).isJustReleased = true ∧
     (s.begin pin mode).longState = false ∧ (s.begin pin mode).longClick = false) ∧
    (∀ ops : List ButtonOp, noCommitB (s.begin pin mode) ops = true →
      (runOps (s.begin pin mode) ops).justPressed.2 = false ∧
      (runOps (s.begin pin mode) ops).justReleased.2 = false ∧
      (∀ t, ((runOps (s.begin pin mode) ops).justClicked t).2 = false) ∧
      (runOps (s.begin pin mode) ops).justLongClicked.2 = false ∧
      (runOps (s.begin pin mode) ops).justDoubleClicked.2 = false) := by
  have hq : Quiet (s.begin pin mode) := by
    simp [Quiet, PushButton.begin]
  refine ⟨⟨hq.1, hq.2.1, by simp [PushButton.begin], hq.2.2.1⟩, ?_⟩
  intro ops hnc
  exact quiet_accessors _ (quiet_run _ ops hq hnc)

/-- Witness for `begin_no_events_until_commit`: `begin` applied to a state
with a stale `doubleClick` latch, followed by a concrete non-committing
run; no accessor fires. -/
theorem begin_no_events_until_commit_witness :
    (((staleDouble.begin 1 INPUT).isJustPressed = true ∧
      (staleDouble.begin 1 INPUT).isJustReleased = true ∧
      (staleDouble.begin 1 INPUT).longState = false ∧
      (staleDouble.begin 1 INPUT).longClick = false) ∧
     ((runOps (staleDouble.begin 1 INPUT) sampleOps).justPressed.2 = false ∧
      (runOps (staleDouble.begin 1 INPUT) sampleOps).justReleased.2 = false ∧
      (∀ t, ((runOps (staleDouble.begin 1 INPUT) sampleOps).justClicked t).2 = false) ∧
      (runOps (staleDouble.begin 1 INPUT) sampleOps).justLongClicked.2 = false ∧
      (runOps (staleDouble.begin 1 INPUT) sampleOps).justDoubleClicked.2 = false)) :=
  ⟨(begin_no_events_until_commit staleDouble 1 INPUT).1,
   (begin_no_events_until_commit staleDouble 1 INPUT).2 sampleOps (by decide)⟩

/-- Shift every stored clock value of a button state by a common constant
(the stored instants are `time` and `timeDouble`). -/
def shiftClock (c : Nat) (s : PushButton) : PushButton :=
  { s with time := s.time + c, timeDouble := s.timeDouble + c }

/-- C8: every elapsed-time comparison of the state machine goes through
the wrapping subtraction `esub`, so shifting all clock values (the stored
instants and the current `millis()` reading) by a common constant changes
nothing observable: `update` and every accessor produce the same results
and correspondingly shifted states.  In particular the machine behaves
identically across counter wraparound. -/
theorem clock_shift_invariance (c : Nat) (s : PushButton) (raw : Bool) (t : Nat) :
    (shiftClock c s).update raw (t + c) =
      (shiftClock c (s.update raw t).1, (s.update raw t).2) ∧
    (shiftClock c s).justClicked (t + c) =
      (shiftClock c (s.justClicked t).1, (s.justClicked t).2) ∧
    (shiftClock c s).justPressed = (shiftClock c s.justPressed.1, s.justPressed.2) ∧
    (shiftClock c s).justReleased = (shiftClock c s.justReleased.1, s.justReleased.2) ∧
    (shiftClock c s).justLongClicked = (shiftClock c s.justLongClicked.1, s.justLongClicked.2) ∧
    (shiftClock c s).justDoubleClicked = (shiftClock c s.justDoubleClicked.1, s.justDoubleClicked.2) ∧
    (shiftClock c s).isPressed = s.isPressed ∧
    (shiftClock c s).isReleased = s.isReleased ∧
    (shiftClock c s).isLongPressed = s.isLongPressed ∧
    (shiftClock c s).isLongReleased = s.isLongReleased := by
  rcases s with ⟨pin, pm, inv, dd, ld, dbl, st, pst, nw, pv, tm, td, ls, lc, dc, jp, jr⟩
  refine ⟨?_, ?_, ?_, ?_, ?_, ?_, ?_, ?_, ?_, ?_⟩ <;>
    simp only [shiftClock, PushButton.update, PushButton.justClicked, PushButton.justPressed,
      PushButton.justReleased, PushButton.justLongClicked, PushButton.justDoubleClicked,
      PushButton.isPressed, PushButton.isReleased, PushButton.isLongPressed,
      PushButton.isLongReleased, esub_shift] <;>
    split_ifs <;> simp_all [esub_shift]

/-- The group loop splits into the heap of once-updated members (which
never consults the boolean accumulator — no short-circuit) and the
disjunction of the member results. -/
theorem groupUpdateLoop_eq (l : List ButtonRef) (H : ButtonRef → PushButton)
    (rawOf : Int → Bool) (t : Nat) (st : Bool) :
    groupUpdateLoop l H rawOf t st =
      (groupHeap l H rawOf t, st || (groupResults l H rawOf t).any id) := by
  induction l generalizing H st with
  | nil => simp [groupUpdateLoop, groupHeap, groupResults]
  | cons b rest ih =>
    simp only [groupUpdateLoop, groupHeap, groupResults, List.any_cons, ih]
    simp [Bool.or_assoc]

/-- One member-update result is produced per member entry. -/
theorem groupResults_length (l : List ButtonRef) (H : ButtonRef → PushButton)
    (rawOf : Int → Bool) (t : Nat) :
    (groupResults l H rawOf t).length = l.length := by
  induction l generalizing H <;> simp [groupResults, *]

/-- A boolean list has a true disjunct exactly when `true` occurs in it. -/
theorem any_id_eq_mem (l : List Bool) : (l.any id = true) ↔ true ∈ l := by
  induction l with
  | nil => simp
  | cons b rest ih => cases b <;> simp [ih]

/-- C9: on a well-formed group (size counter matching the table), group
`update` (1) returns `(H, false)` on the empty group, (2) returns `true`
iff at least one member's update returned `true`, (3) produces one member
result per member entry, and (4) leaves the heap equal to updating every
member exactly once, in order, independently of the accumulated boolean —
so every member is polled even after an early `true` (no short-circuit). -/
theorem groupUpdate_spec (g : PushButtonGroup) (H : ButtonRef → PushButton)
    (rawOf : Int → Bool) (t : Nat) (wf : g.buttonsSize = (g.buttons.length : Int)) :
    (g.buttons = [] → g.update H rawOf t = (H, false)) ∧
    ((g.update H rawOf t).2 = true ↔ true ∈ groupResults g.buttons H rawOf t) ∧
    (groupResults g.buttons H rawOf t).length = g.buttons.length ∧
    (g.update H rawOf t).1 = groupHeap g.buttons H rawOf t := by
  have htake : g.buttons.take g.buttonsSize.toNat = g.buttons := by
    rw [wf]; simp
  refine ⟨?_, ?_, groupResults_length _ _ _ _, ?_⟩
  · intro he
    simp [PushButtonGroup.update, htake, he, groupUpdateLoop]
  · rw [PushButtonGroup.update, htake, groupUpdateLoop_eq]
    simp [any_id_eq_mem]
  · rw [PushButtonGroup.update, htake, groupUpdateLoop_eq]

/-- A well-formed one-member group. -/
def wGroup : PushButtonGroup := { buttons := [5], buttonsSize := 1 }

/-- Witness for `groupUpdate_spec` on a concrete one-member group with a
concrete heap and environment. -/
theorem groupUpdate_spec_witness :
    (wGroup.buttons = [] →
        wGroup.update (fun _ => mkPushButton 0) (fun _ => false) 0 = (fun _ => mkPushButton 0, false)) ∧
    ((wGroup.update (fun _ => mkPushButton 0) (fun _ => false) 0).2 = true ↔
        true ∈ groupResults wGroup.buttons (fun _ => mkPushButton 0) (fun _ => false) 0) ∧
    (groupResults wGroup.buttons (fun _ => mkPushButton 0) (fun _ => false) 0).length =
        wGroup.buttons.length ∧
    (wGroup.update (fun _ => mkPushButton 0) (fun _ => false) 0).1 =
        groupHeap wGroup.buttons (fun _ => mkPushButton 0) (fun _ => false) 0 :=
  groupUpdate_spec wGroup (fun _ => mkPushButton 0) (fun _ => false) 0 (by decide)
